import Mathlib

/-!
Verification of the kcp `clusterworkspaceshard` controller
(`pkg/reconciler/tenancy/clusterworkspaceshard`) and of the heartbeat
option validation (`pkg/reconciler/workload/heartbeat/heartbeat_start.go`).

The Go source is shallowly embedded:

* `ClusterWorkspaceShard` keeps the fields the controller reads or writes
  (name, UID, resourceVersion, labels, status).  The status type of the
  real API object has further structure the controller never inspects:
  it is only compared with `equality.Semantic.DeepEqual` and marshalled,
  so it is modelled as an opaque value with decidable equality.
* Go labels are `map[string]string`, which can be `nil`; this is modelled
  as `Option Labels` with `Labels` an association list without duplicate
  keys, and `reflect.DeepEqual` on maps as extensional map equality
  (`nil` and the empty map compare unequal, as in Go).
* Pointers into the informer cache are modelled with a small heap of
  shard cells (`Heap`).  The lister hands out an address; `DeepCopy`
  allocates a fresh cell; `reconcile` mutates the cell it is given.
  This keeps the aliasing structure of the Go code observable, so that
  "the lister's object is never mutated" is a real theorem about which
  cell `process` writes.
* `json.Marshal` of the patch scaffolding structs cannot fail (the types
  contain only strings, maps and plain structs), and
  `jsonpatch.CreateMergePatch` cannot fail on the JSON those produce, so
  both are modelled as total functions.  `CreateMergePatch` is modelled
  field by field over the marshalled document: a field equal in the old
  and the new document is omitted from the patch, a field only in the
  new document is set, a field only in the old document is removed
  (`null`), and the labels map is diffed key by key — exactly the
  behaviour of `evanphx/json-patch` on these documents.  `omitempty`
  is modelled: an empty string or a nil/empty label map is absent from
  the marshalled document, while a struct-valued field (`status`) is
  always present.
* The external collaborators (lister, patch sink) are an `Env` of
  oracles; the queue operations performed by `processNextWorkItem` are
  recorded as a list of `QueueOp` in execution order (the deferred
  `Done` runs last).
-/

/-- Go `map[string]string` contents: an association list of label
key/value pairs.  The Go runtime guarantees no duplicate keys. -/
abbrev Labels := List (String × String)

/-- Lookup of a key in a label map (`m[k]` read). -/
def lookupLabel : Labels → String → Option String
  | [], _ => none
  | (k, v) :: rest, key => if k = key then some v else lookupLabel rest key

/-- Go map assignment `m[k] = v`: replace the binding if the key is
present, otherwise add it. -/
def setLabel : Labels → String → String → Labels
  | [], key, val => [(key, val)]
  | (k, v) :: rest, key, val =>
    if k = key then (key, val) :: rest else (k, v) :: setLabel rest key val

/-- One direction of map extensional equality: every binding of `a` is a
binding of `b`. -/
def labelsIncl (a b : Labels) : Bool :=
  a.all fun kv => lookupLabel b kv.1 == some kv.2

/-- Model of `reflect.DeepEqual` on two non-nil Go maps: the same key/value sets. -/
def labelsEq (a b : Labels) : Bool :=
  labelsIncl a b && labelsIncl b a

/-- Model of `equality.Semantic.DeepEqual` on the `Labels` fields: a nil map is
only equal to a nil map (Go distinguishes nil from empty). -/
def optLabelsEq : Option Labels → Option Labels → Bool
  | none, none => true
  | some a, some b => labelsEq a b
  | _, _ => false

/-- Marshalled form of a `Labels` field under `json:"labels,omitempty"`:
a nil or empty map produces no `labels` key in the document. -/
def jsonLabels : Option Labels → Option Labels
  | none => none
  | some [] => none
  | some l => some l

/-- Marshalled form of a string field under `omitempty`: the empty
string produces no key in the document. -/
def jsonStr (s : String) : Option String :=
  if s = "" then none else some s

/-- Opaque stand-in for `ClusterWorkspaceShardStatus`: the controller
only compares it for (semantic deep) equality and marshals it. -/
structure ShardStatus where
  val : String
deriving DecidableEq, Repr

/-- The zero `ClusterWorkspaceShardStatus` produced when the `Status`
field of the patch scaffolding struct is left unset (structs are never
dropped by `omitempty`). -/
def zeroStatus : ShardStatus := ⟨""⟩

/-- The fields of `tenancyv1alpha1.ClusterWorkspaceShard` that the
controller reads or writes. -/
structure ClusterWorkspaceShard where
  name : String
  uid : String
  resourceVersion : String
  labels : Option Labels
  status : ShardStatus
deriving DecidableEq, Repr

/-- Default cell contents for out-of-range heap reads (never reached
under the validity hypotheses of the theorems below). -/
def defaultShard : ClusterWorkspaceShard := ⟨"", "", "", none, zeroStatus⟩

/-- A heap of shard objects: models Go pointers into the informer cache
and locally allocated deep copies.  Addresses are list indices. -/
structure Heap where
  cells : List ClusterWorkspaceShard
deriving DecidableEq, Repr

/-- Dereference an address. -/
def Heap.get (h : Heap) (a : Nat) : ClusterWorkspaceShard :=
  h.cells.getD a defaultShard

/-- Write through an address (in-place mutation of the pointed-to
object). -/
def Heap.set (h : Heap) (a : Nat) (s : ClusterWorkspaceShard) : Heap :=
  ⟨h.cells.set a s⟩

/-- Allocate a fresh cell holding `s`; returns the new heap and the
fresh address. -/
def Heap.alloc (h : Heap) (s : ClusterWorkspaceShard) : Heap × Nat :=
  (⟨h.cells ++ [s]⟩, h.cells.length)

/-- Model of `obj.DeepCopy()`: the copied value; the fresh cell is made by
`Heap.alloc`. -/
def deepCopy (s : ClusterWorkspaceShard) : ClusterWorkspaceShard := s

/-- State of one field of the marshalled object inside a computed merge
patch: absent (the field was equal in old and new and is omitted), set
to a value, or removed (`null` in the patch). -/
inductive FieldPatch (α : Type) where
  | absent
  | set (v : α)
  | remove
deriving DecidableEq, Repr

/-- Merge-patch diff of one scalar field of the marshalled documents,
as computed by `jsonpatch.CreateMergePatch`: equal values are omitted,
a value only in the new document is set, a value only in the old
document is removed. -/
def diffField {α : Type} [DecidableEq α] : Option α → Option α → FieldPatch α
  | none, none => .absent
  | none, some b => .set b
  | some _, none => .remove
  | some a, some b => if a = b then .absent else .set b

/-- State of the `metadata.labels` object inside a computed merge patch:
absent, removed wholesale (`null`), or a per-key patch. -/
inductive LabelsFieldPatch where
  | absent
  | remove
  | patch (entries : List (String × FieldPatch String))
deriving DecidableEq, Repr

/-- Merge-patch diff of the `metadata.labels` map: keys of the new
document that are new or changed are set, keys only in the old document
are nulled, and the whole field is omitted when nothing differs. -/
def labelsDiff : Option Labels → Option Labels → LabelsFieldPatch
  | none, none => .absent
  | some _, none => .remove
  | none, some m => .patch (m.map fun kv => (kv.1, .set kv.2))
  | some a, some b =>
    let changed := b.filterMap fun kv =>
      if lookupLabel a kv.1 = some kv.2 then none else some (kv.1, FieldPatch.set kv.2)
    let removed := a.filterMap fun kv =>
      match lookupLabel b kv.1 with
      | none => some (kv.1, FieldPatch.remove)
      | some _ => none
    match changed ++ removed with
    | [] => .absent
    | es => .patch es

/-- Marshalled form of the patch scaffolding
`tenancyv1alpha1.ClusterWorkspaceShard` struct literal: only the fields
the controller ever sets can be non-zero.  The `spec` field and the
other metadata fields are zero-valued identically in the old and the new
document, so they never contribute to a merge patch and are elided. -/
structure PatchDoc where
  uid : Option String
  resourceVersion : Option String
  labels : Option Labels
  status : Option ShardStatus
deriving DecidableEq, Repr

/-- The merge patch over the four modelled document fields. -/
structure MergePatch where
  uid : FieldPatch String
  resourceVersion : FieldPatch String
  labels : LabelsFieldPatch
  status : FieldPatch ShardStatus
deriving DecidableEq, Repr

/-- Model of `jsonpatch.CreateMergePatch(oldData, newData)` on the marshalled
documents: an independent diff of each field. -/
def createMergePatch (oldDoc newDoc : PatchDoc) : MergePatch :=
  ⟨diffField oldDoc.uid newDoc.uid,
   diffField oldDoc.resourceVersion newDoc.resourceVersion,
   labelsDiff oldDoc.labels newDoc.labels,
   diffField oldDoc.status newDoc.status⟩

/-- One call to
`kcpClient.TenancyV1alpha1().ClusterWorkspaceShards().Patch(...)`:
the object name, the merge-patch body, and the subresource arguments
(`["status"]` for the status update, `[]` for the metadata update). -/
structure PatchCall where
  name : String
  patch : MergePatch
  subresources : List String
deriving DecidableEq, Repr

/-- Outcome of `clusterWorkspaceShardLister.Get(key)`: the object (an
address into the cache heap), a not-found error, or any other error. -/
inductive ListerResult where
  | found (addr : Nat)
  | errNotFound
  | errOther (msg : String)
deriving DecidableEq, Repr

/-- The external collaborators of the controller: the lister cache and
the patch sink (the API server's reply to each `Patch` call). -/
structure Env where
  lister : String → ListerResult
  patchErr : PatchCall → Option String

/-- The pluggable reconcile function: receives the working copy's value
and returns the mutated value together with the returned error
(`c.reconcile` in the source; the spec's §4.4 Reconcile Function). -/
abbrev RecFun := ClusterWorkspaceShard → ClusterWorkspaceShard × Option String

/-- Result of `process`: the `(requeue, err)` pair it returns, the
`Patch` calls it performed in order, and the heap after the pass. -/
structure ProcessResult where
  requeue : Bool
  err : Option String
  patches : List PatchCall
  heap : Heap
deriving Repr

/-- Model of `strings.Split(key, "/")` over the characters of the key: the list
of slash-separated groups (always non-empty, one group per separator
plus one). -/
def splitKey : List Char → List (List Char)
  | [] => [[]]
  | c :: rest =>
    if c = '/' then [] :: splitKey rest
    else
      match splitKey rest with
      | [] => [[c]]
      | g :: gs => (c :: g) :: gs

/-- Model of `cache.SplitMetaNamespaceKey`: no slash means a cluster-scoped name,
one slash splits namespace from name, more slashes are an error. -/
def splitMetaNamespaceKey (key : String) : Option (String × String) :=
  match (splitKey key.toList).map List.asString with
  | [name] => some ("", name)
  | [ns, name] => some (ns, name)
  | _ => none

/-- A key `process` rejects up front: it fails to split, or it carries a
non-empty namespace for the cluster-scoped `ClusterWorkspaceShard`. -/
def malformedKey (key : String) : Bool :=
  match splitMetaNamespaceKey key with
  | none => true
  | some (ns, _) => ns != ""

/-- The label key stamped by the reconciler, `"tenancy.kcp.dev/shard"`. -/
def shardLabelKey : String := "tenancy.kcp.dev/shard"

/-- Model of `Controller.reconcile`: create the label map if nil, then stamp
`Labels["tenancy.kcp.dev/shard"] = Name`; always returns nil. -/
def shardReconcile : RecFun := fun w =>
  let w := if w.labels = none then { w with labels := some [] } else w
  ({ w with labels := some (setLabel (w.labels.getD []) shardLabelKey w.name) }, none)

/-- Body of `Controller.process` after a successful lister read of the
object at `addr`: retain `previous`, deep-copy, reconcile the copy, then
diff status first and labels second, committing at most one group. -/
def commit (rec : RecFun) (env : Env) (h : Heap) (addr : Nat) : ProcessResult :=
  let previous := h.get addr
  let h1 := (h.alloc (deepCopy (h.get addr))).1
  let objAddr := (h.alloc (deepCopy (h.get addr))).2
  let r := rec (h1.get objAddr)
  let h2 := h1.set objAddr r.1
  match r.2 with
  | some e => ⟨true, some e, [], h2⟩
  | none =>
    let obj := h2.get objAddr
    if previous.status ≠ obj.status then
      let oldDoc : PatchDoc :=
        ⟨jsonStr previous.uid, jsonStr previous.resourceVersion, none, some previous.status⟩
      let newDoc : PatchDoc :=
        ⟨jsonStr previous.uid, jsonStr previous.resourceVersion, none, some obj.status⟩
      let pc : PatchCall := ⟨obj.name, createMergePatch oldDoc newDoc, ["status"]⟩
      match env.patchErr pc with
      | some uerr => ⟨true, some uerr, [pc], h2⟩
      | none => ⟨true, none, [pc], h2⟩
    else if previous.labels = none ∨ optLabelsEq previous.labels obj.labels = false then
      let oldDoc : PatchDoc :=
        ⟨jsonStr previous.uid, jsonStr previous.resourceVersion,
          jsonLabels previous.labels, some zeroStatus⟩
      let newDoc : PatchDoc :=
        ⟨jsonStr previous.uid, jsonStr previous.resourceVersion,
          jsonLabels obj.labels, some zeroStatus⟩
      let pc : PatchCall := ⟨obj.name, createMergePatch oldDoc newDoc, []⟩
      match env.patchErr pc with
      | some uerr => ⟨true, some uerr, [pc], h2⟩
      | none => ⟨true, none, [pc], h2⟩
    else ⟨false, none, [], h2⟩

/-- Model of `Controller.process`: reject malformed keys without retry, treat a
vanished object as success, propagate other lister errors as retriable,
otherwise run the reconcile-diff-commit body. -/
def process (rec : RecFun) (env : Env) (h : Heap) (key : String) : ProcessResult :=
  match splitMetaNamespaceKey key with
  | none => ⟨false, none, [], h⟩
  | some (ns, _) =>
    if ns ≠ "" then ⟨false, none, [], h⟩
    else
      match env.lister key with
      | .errNotFound => ⟨false, none, [], h⟩
      | .errOther msg => ⟨true, some msg, [], h⟩
      | .found addr => commit rec env h addr

/-- Operations `processNextWorkItem` performs on the work queue. -/
inductive QueueOp where
  | done (key : String)
  | addRateLimited (key : String)
  | add (key : String)
  | forget (key : String)
deriving DecidableEq, Repr

/-- Observable outcome of one `processNextWorkItem` iteration: whether
the worker keeps running, the queue operations in execution order (the
deferred `Done` last), and the errors handed to `runtime.HandleError`. -/
structure WorkerStep where
  keepRunning : Bool
  ops : List QueueOp
  reported : List (String × String)
deriving DecidableEq, Repr

/-- Model of `Controller.processNextWorkItem`: `item = none` models
`queue.Get()` reporting shutdown.  On error: report, `AddRateLimited`,
no `Forget`.  On requeue without error: `Add` then `Forget`.  Otherwise
just `Forget`.  The deferred `Done` always runs last and the function
returns `true` whenever an item was dequeued. -/
def processNextWorkItem (rec : RecFun) (env : Env) (h : Heap)
    (item : Option String) : WorkerStep :=
  match item with
  | none => ⟨false, [], []⟩
  | some key =>
    let r := process rec env h key
    match r.err with
    | some e => ⟨true, [.addRateLimited key, .done key], [(key, e)]⟩
    | none =>
      if r.requeue then ⟨true, [.add key, .forget key, .done key], []⟩
      else ⟨true, [.forget key, .done key], []⟩

/-- Model of `Controller.enqueue`: derive the key with the key function; on
extraction failure hand the error to `runtime.HandleError` and do not
add anything; otherwise `queue.Add(key)`. -/
def enqueue {α : Type} (keyOf : α → Option String) (q : List String) (obj : α) :
    List String :=
  match keyOf obj with
  | none => q
  | some key => q ++ [key]

/-- Model of `heartbeat.Options`: the heartbeat threshold is a `time.Duration`
(an integer number of nanoseconds). -/
structure Options where
  heartbeatThreshold : Int

/-- Model of `Options.Validate`: an error exactly when the threshold is not
strictly positive. -/
def Options.validate (o : Options) : Option String :=
  if o.heartbeatThreshold ≤ 0 then
    some "--workload-cluster-heartbeat-threshold must be >0"
  else none

/-- Model of `Controller.Start`: the loop `for i := 0; i < numThreads; i++`
launches one worker goroutine per iteration, so `max numThreads 0`
workers in all; `Start` itself performs no validation. -/
def startWorkers (numThreads : Int) : Nat :=
  numThreads.toNat

/-- Modelled from the spec: validation of the worker-count tunable.  The
code that validates the worker count before the engine starts is not
part of the sources under verification (only `Start`, its consumer, is);
per §6, the configuration surface is "a duration threshold and a worker
count, validated to be strictly positive before the engine starts". -/
def validateWorkerCount (n : Int) : Option String :=
  if n ≤ 0 then some "worker count must be strictly positive" else none

/-! Helper lemmas about the heap and the merge-patch diff. -/

theorem getD_append_length {α : Type} (l : List α) (s d : α) :
    (l ++ [s]).getD l.length d = s := by
  induction l with
  | nil => rfl
  | cons x xs ih => simp [ih]

theorem getD_append_lt {α : Type} (l l' : List α) (n : Nat) (d : α) (hn : n < l.length) :
    (l ++ l').getD n d = l.getD n d := by
  induction l generalizing n with
  | nil => exact absurd hn (by simp)
  | cons x xs ih =>
    cases n with
    | zero => rfl
    | succ m => simpa using ih m (by simpa using hn)

theorem set_append_length {α : Type} (l : List α) (s t : α) :
    (l ++ [s]).set l.length t = l ++ [t] := by
  induction l with
  | nil => rfl
  | cons x xs ih =>
    show x :: (xs ++ [s]).set xs.length t = x :: (xs ++ [t])
    rw [ih]

theorem Heap.alloc_snd (h : Heap) (s : ClusterWorkspaceShard) :
    (h.alloc s).2 = h.cells.length := rfl

theorem Heap.get_alloc_self (h : Heap) (s : ClusterWorkspaceShard) :
    (h.alloc s).1.get h.cells.length = s :=
  getD_append_length h.cells s defaultShard

theorem Heap.alloc_set (h : Heap) (s t : ClusterWorkspaceShard) :
    (h.alloc s).1.set h.cells.length t = ⟨h.cells ++ [t]⟩ := by
  show (⟨(h.cells ++ [s]).set h.cells.length t⟩ : Heap) = _
  rw [set_append_length]

theorem Heap.get_append_lt (h : Heap) (t : ClusterWorkspaceShard) (a : Nat)
    (ha : a < h.cells.length) :
    Heap.get ⟨h.cells ++ [t]⟩ a = h.get a :=
  getD_append_lt h.cells [t] a defaultShard ha

theorem Heap.get_append_length (h : Heap) (t : ClusterWorkspaceShard) :
    Heap.get ⟨h.cells ++ [t]⟩ h.cells.length = t :=
  getD_append_length h.cells t defaultShard

theorem diffField_self {α : Type} [DecidableEq α] (a : Option α) :
    diffField a a = .absent := by
  cases a with
  | none => rfl
  | some v => simp [diffField]

theorem diffField_some_ne {α : Type} [DecidableEq α] {a b : α} (hab : a ≠ b) :
    diffField (some a) (some b) = .set b := by
  simp [diffField, hab]

/-! Characterization of `shardReconcile` (the controller's reconcile). -/

theorem shardReconcile_fst (w : ClusterWorkspaceShard) :
    (shardReconcile w).1 =
      { w with labels := some (setLabel (w.labels.getD []) shardLabelKey w.name) } := by
  by_cases hn : w.labels = none
  · simp [shardReconcile, hn]
  · simp [shardReconcile, hn]

theorem shardReconcile_snd (w : ClusterWorkspaceShard) :
    (shardReconcile w).2 = none := by
  simp [shardReconcile]

/-! Characterization of `process`'s branches. -/

theorem process_found (rec : RecFun) (env : Env) (h : Heap) (key nm : String) (addr : Nat)
    (hk : splitMetaNamespaceKey key = some ("", nm))
    (hl : env.lister key = .found addr) :
    process rec env h key = commit rec env h addr := by
  simp [process, hk, hl]

theorem commit_run (rec : RecFun) (env : Env) (h : Heap) (addr : Nat)
    (objNew : ClusterWorkspaceShard) (rerr : Option String)
    (hrec : rec (h.get addr) = (objNew, rerr)) :
    commit rec env h addr =
      (match rerr with
       | some e => ⟨true, some e, [], ⟨h.cells ++ [objNew]⟩⟩
       | none =>
         if (h.get addr).status ≠ objNew.status then
           match env.patchErr ⟨objNew.name,
              createMergePatch
                ⟨jsonStr (h.get addr).uid, jsonStr (h.get addr).resourceVersion,
                  none, some (h.get addr).status⟩
                ⟨jsonStr (h.get addr).uid, jsonStr (h.get addr).resourceVersion,
                  none, some objNew.status⟩,
              ["status"]⟩ with
           | some uerr =>
             ⟨true, some uerr,
              [⟨objNew.name,
                createMergePatch
                  ⟨jsonStr (h.get addr).uid, jsonStr (h.get addr).resourceVersion,
                    none, some (h.get addr).status⟩
                  ⟨jsonStr (h.get addr).uid, jsonStr (h.get addr).resourceVersion,
                    none, some objNew.status⟩,
                ["status"]⟩],
              ⟨h.cells ++ [objNew]⟩⟩
           | none =>
             ⟨true, none,
              [⟨objNew.name,
                createMergePatch
                  ⟨jsonStr (h.get addr).uid, jsonStr (h.get addr).resourceVersion,
                    none, some (h.get addr).status⟩
                  ⟨jsonStr (h.get addr).uid, jsonStr (h.get addr).resourceVersion,
                    none, some objNew.status⟩,
                ["status"]⟩],
              ⟨h.cells ++ [objNew]⟩⟩
         else if (h.get addr).labels = none ∨
             optLabelsEq (h.get addr).labels objNew.labels = false then
           match env.patchErr ⟨objNew.name,
              createMergePatch
                ⟨jsonStr (h.get addr).uid, jsonStr (h.get addr).resourceVersion,
                  jsonLabels (h.get addr).labels, some zeroStatus⟩
                ⟨jsonStr (h.get addr).uid, jsonStr (h.get addr).resourceVersion,
                  jsonLabels objNew.labels, some zeroStatus⟩,
              []⟩ with
           | some uerr =>
             ⟨true, some uerr,
              [⟨objNew.name,
                createMergePatch
                  ⟨jsonStr (h.get addr).uid, jsonStr (h.get addr).resourceVersion,
                    jsonLabels (h.get addr).labels, some zeroStatus⟩
                  ⟨jsonStr (h.get addr).uid, jsonStr (h.get addr).resourceVersion,
                    jsonLabels objNew.labels, some zeroStatus⟩,
                []⟩],
              ⟨h.cells ++ [objNew]⟩⟩
           | none =>
             ⟨true, none,
              [⟨objNew.name,
                createMergePatch
                  ⟨jsonStr (h.get addr).uid, jsonStr (h.get addr).resourceVersion,
                    jsonLabels (h.get addr).labels, some zeroStatus⟩
                  ⟨jsonStr (h.get addr).uid, jsonStr (h.get addr).resourceVersion,
                    jsonLabels objNew.labels, some zeroStatus⟩,
                []⟩],
              ⟨h.cells ++ [objNew]⟩⟩
         else ⟨false, none, [], ⟨h.cells ++ [objNew]⟩⟩) := by
  cases rerr with
  | some e =>
    simp only [commit, Heap.alloc_snd, Heap.get_alloc_self, deepCopy, hrec,
      Heap.alloc_set, Heap.get_append_length]
  | none =>
    simp only [commit, Heap.alloc_snd, Heap.get_alloc_self, deepCopy, hrec,
      Heap.alloc_set, Heap.get_append_length]

/-! Concrete objects used by the closed theorems and witnesses. -/

/-- A shard carrying a non-empty UID and resourceVersion but no labels:
the first reconcile pass must commit a labels patch for it. -/
def sampleShard : ClusterWorkspaceShard := ⟨"shard-1", "uid-1", "42", none, ⟨"ready"⟩⟩

/-- Environment whose lister resolves every key to the cache cell at
address 0 and whose patch sink accepts every patch. -/
def sampleEnv : Env := ⟨fun _ => .found 0, fun _ => none⟩

/-- Cache heap holding only `sampleShard`. -/
def sampleHeap : Heap := ⟨[sampleShard]⟩

/-- The same shard after a successful first pass: it already carries the
correct identity label. -/
def labelledShard : ClusterWorkspaceShard :=
  ⟨"shard-1", "uid-1", "43", some [(shardLabelKey, "shard-1")], ⟨"ready"⟩⟩

/-- Cache heap holding only `labelledShard`. -/
def labelledHeap : Heap := ⟨[labelledShard]⟩

/-- C1: the claim says the merge patch submitted by `process` carries
the original's UID and ResourceVersion as preconditions.  The code puts
the same UID and ResourceVersion into `oldData` and `newData`, and
`jsonpatch.CreateMergePatch` omits every field that is equal in both
documents, so the submitted patch contains neither — the update carries
no preconditions at all, contradicting the code's own comment
("to ensure they appear in the patch as preconditions").  Evaluated on a
shard with a non-empty UID and ResourceVersion whose reconcile pass
changes the labels: the only submitted patch has both fields absent. -/
theorem c1_submitted_patch_has_no_preconditions :
    (sampleHeap.get 0).uid = "uid-1" ∧
    (sampleHeap.get 0).resourceVersion = "42" ∧
    (process shardReconcile sampleEnv sampleHeap "shard-1").patches =
      [⟨"shard-1",
        ⟨.absent, .absent, .patch [(shardLabelKey, .set "shard-1")], .absent⟩,
        []⟩] := by
  refine ⟨rfl, rfl, ?_⟩
  rfl

/-- C3: a pass on which the controller's reconcile changes neither the
status group nor the labels group (in particular the object already
carries the identity label, hence a non-nil label map) makes zero Patch
calls and returns `(requeue := false, err := nil)` — a second
reconciliation pass on an unchanged object produces no commit. -/
theorem c3_noop_pass_commits_nothing (env : Env) (h : Heap) (key nm : String) (addr : Nat)
    (hk : splitMetaNamespaceKey key = some ("", nm))
    (hl : env.lister key = .found addr)
    (hst : (shardReconcile (h.get addr)).1.status = (h.get addr).status)
    (hlb : optLabelsEq (h.get addr).labels (shardReconcile (h.get addr)).1.labels = true) :
    (process shardReconcile env h key).patches = [] ∧
    (process shardReconcile env h key).requeue = false ∧
    (process shardReconcile env h key).err = none := by
  have hrec : shardReconcile (h.get addr) = ((shardReconcile (h.get addr)).1, none) := by
    rw [← shardReconcile_snd (h.get addr)]
  have hnotnil : ¬((h.get addr).labels = none) := by
    intro hn
    rw [hn, shardReconcile_fst] at hlb
    simp [optLabelsEq] at hlb
  rw [process_found shardReconcile env h key nm addr hk hl,
    commit_run shardReconcile env h addr (shardReconcile (h.get addr)).1 none hrec]
  simp [hst, hlb, hnotnil]

/-- C3 witness: on a shard that already carries the identity label the
second pass makes no patch and does not requeue. -/
theorem c3_noop_pass_commits_nothing_holds :
    (process shardReconcile sampleEnv labelledHeap "shard-1").patches = [] ∧
    (process shardReconcile sampleEnv labelledHeap "shard-1").requeue = false ∧
    (process shardReconcile sampleEnv labelledHeap "shard-1").err = none :=
  c3_noop_pass_commits_nothing sampleEnv labelledHeap "shard-1" "shard-1" 0
    (by decide) rfl (by decide) (by decide)

/-- C7: on a shard with no labels, one reconcile pass stamps
`Labels["tenancy.kcp.dev/shard"] = Name` (creating the map from nil),
`reconcile` returns nil, and `process` performs exactly one Patch call,
which targets the label field group with no subresource argument — not
the status subresource. -/
theorem c7_unlabelled_shard_gets_one_labels_patch (env : Env) (h : Heap)
    (key nm : String) (addr : Nat)
    (hk : splitMetaNamespaceKey key = some ("", nm))
    (hl : env.lister key = .found addr)
    (hnil : (h.get addr).labels = none) :
    (shardReconcile (h.get addr)).2 = none ∧
    (shardReconcile (h.get addr)).1.labels =
      some [(shardLabelKey, (h.get addr).name)] ∧
    lookupLabel ((shardReconcile (h.get addr)).1.labels.getD []) shardLabelKey =
      some (h.get addr).name ∧
    (process shardReconcile env h key).patches =
      [⟨(h.get addr).name,
        ⟨.absent, .absent,
          .patch [(shardLabelKey, .set (h.get addr).name)], .absent⟩,
        []⟩] := by
  have hrec : shardReconcile (h.get addr) = ((shardReconcile (h.get addr)).1, none) := by
    rw [← shardReconcile_snd (h.get addr)]
  have hlabels : (shardReconcile (h.get addr)).1.labels =
      some [(shardLabelKey, (h.get addr).name)] := by
    rw [shardReconcile_fst]
    simp [hnil, setLabel]
  refine ⟨shardReconcile_snd _, hlabels, by simp [hlabels, lookupLabel], ?_⟩
  rw [process_found shardReconcile env h key nm addr hk hl,
    commit_run shardReconcile env h addr (shardReconcile (h.get addr)).1 none hrec]
  have hst : (shardReconcile (h.get addr)).1.status = (h.get addr).status := by
    rw [shardReconcile_fst]
  have hname : (shardReconcile (h.get addr)).1.name = (h.get addr).name := by
    rw [shardReconcile_fst]
  simp only [hst, ne_eq, not_true_eq_false, if_false, hnil, true_or, if_true,
    hlabels, hname, jsonLabels, createMergePatch, diffField_self, labelsDiff,
    List.map]
  cases env.patchErr _ <;> simp

/-- C7 witness: the unlabelled sample shard yields exactly the one
labels-group patch with no subresource. -/
theorem c7_unlabelled_shard_gets_one_labels_patch_holds :
    (shardReconcile (sampleHeap.get 0)).2 = none ∧
    (shardReconcile (sampleHeap.get 0)).1.labels =
      some [(shardLabelKey, (sampleHeap.get 0).name)] ∧
    lookupLabel ((shardReconcile (sampleHeap.get 0)).1.labels.getD []) shardLabelKey =
      some (sampleHeap.get 0).name ∧
    (process shardReconcile sampleEnv sampleHeap "shard-1").patches =
      [⟨(sampleHeap.get 0).name,
        ⟨.absent, .absent,
          .patch [(shardLabelKey, .set (sampleHeap.get 0).name)], .absent⟩,
        []⟩] :=
  c7_unlabelled_shard_gets_one_labels_patch sampleEnv sampleHeap "shard-1" "shard-1" 0
    (by decide) rfl (by decide)

/-- C2: for a found object, the field groups are checked status first;
when the status group differs between the original and the reconciled
copy, `process` submits exactly one patch, scoped to the `status`
subresource and containing no labels data, and returns
`(requeue := true, err := nil)` without patching the labels group in the
same pass. -/
theorem c2_status_group_first_single_patch (rec : RecFun) (env : Env) (h : Heap)
    (key nm : String) (addr : Nat) (objNew : ClusterWorkspaceShard)
    (hk : splitMetaNamespaceKey key = some ("", nm))
    (hl : env.lister key = .found addr)
    (hrec : rec (h.get addr) = (objNew, none))
    (hst : (h.get addr).status ≠ objNew.status)
    (hpe : ∀ pc, env.patchErr pc = none) :
    (process rec env h key).patches =
      [⟨objNew.name, ⟨.absent, .absent, .absent, .set objNew.status⟩, ["status"]⟩] ∧
    (process rec env h key).requeue = true ∧
    (process rec env h key).err = none := by
  rw [process_found rec env h key nm addr hk hl,
    commit_run rec env h addr objNew none hrec]
  simp [hst, hpe, createMergePatch, diffField_self, diffField_some_ne hst, labelsDiff]

/-- Reconciler that rewrites the status group, exercising the status
branch of the commit protocol. -/
def statusBump : RecFun := fun w => ({ w with status := ⟨"updated"⟩ }, none)

/-- C2 witness: a status-changing reconcile pass on the labelled shard
submits exactly the one status-subresource patch and requeues without
error. -/
theorem c2_status_group_first_single_patch_holds :
    (process statusBump sampleEnv labelledHeap "shard-1").patches =
      [⟨"shard-1", ⟨.absent, .absent, .absent, .set ⟨"updated"⟩⟩, ["status"]⟩] ∧
    (process statusBump sampleEnv labelledHeap "shard-1").requeue = true ∧
    (process statusBump sampleEnv labelledHeap "shard-1").err = none :=
  c2_status_group_first_single_patch statusBump sampleEnv labelledHeap
    "shard-1" "shard-1" 0 { labelledShard with status := ⟨"updated"⟩ }
    (by decide) rfl rfl (by decide) (fun _ => rfl)

theorem commit_heap (rec : RecFun) (env : Env) (h : Heap) (addr : Nat) :
    (commit rec env h addr).heap = ⟨h.cells ++ [(rec (h.get addr)).1]⟩ := by
  rw [commit_run rec env h addr (rec (h.get addr)).1 (rec (h.get addr)).2 rfl]
  split
  · rfl
  · split
    · split <;> rfl
    · split
      · split <;> rfl
      · rfl

/-- C8: `process` never mutates the object obtained from the lister.
The reconcile function is applied only to the freshly allocated deep
copy: after the pass, every pre-existing cache cell — in particular the
cell the lister returned — holds its original value, and the reconciled
value sits in the fresh copy cell. -/
theorem c8_lister_object_never_mutated (rec : RecFun) (env : Env) (h : Heap)
    (key nm : String) (addr : Nat)
    (hk : splitMetaNamespaceKey key = some ("", nm))
    (hl : env.lister key = .found addr) :
    (∀ a, a < h.cells.length → (process rec env h key).heap.get a = h.get a) ∧
    (process rec env h key).heap.get h.cells.length = (rec (deepCopy (h.get addr))).1 := by
  have hheap : (process rec env h key).heap = ⟨h.cells ++ [(rec (h.get addr)).1]⟩ := by
    rw [process_found rec env h key nm addr hk hl, commit_heap]
  constructor
  · intro a ha
    rw [hheap]
    exact Heap.get_append_lt h _ a ha
  · rw [hheap]
    exact Heap.get_append_length h _

/-- C8 witness: on the concrete cache the lister's cell at address 0 is
unchanged by the pass and the reconciled value is in the fresh cell. -/
theorem c8_lister_object_never_mutated_holds :
    (process shardReconcile sampleEnv sampleHeap "shard-1").heap.get 0 = sampleHeap.get 0 ∧
    (process shardReconcile sampleEnv sampleHeap "shard-1").heap.get 1 =
      (shardReconcile (deepCopy (sampleHeap.get 0))).1 :=
  ⟨(c8_lister_object_never_mutated shardReconcile sampleEnv sampleHeap
      "shard-1" "shard-1" 0 (by decide) rfl).1 0 (by decide),
   (c8_lister_object_never_mutated shardReconcile sampleEnv sampleHeap
      "shard-1" "shard-1" 0 (by decide) rfl).2⟩

/-- C5: a malformed key is dropped and never retried.  If key extraction
fails in `enqueue` the queue is unchanged; if a dequeued key fails to
split or carries a namespace for the cluster-scoped shard type,
`process` returns `(requeue := false, err := nil)` and the worker loop
calls `Forget` rather than requeueing. -/
theorem c5_malformed_key_dropped_not_retried {α : Type} (keyOf : α → Option String)
    (q : List String) (o : α) (rec : RecFun) (env : Env) (h : Heap) (key : String)
    (hko : keyOf o = none) (hbad : malformedKey key = true) :
    enqueue keyOf q o = q ∧
    process rec env h key = ⟨false, none, [], h⟩ ∧
    (processNextWorkItem rec env h (some key)).ops = [.forget key, .done key] := by
  have hp : process rec env h key = ⟨false, none, [], h⟩ := by
    unfold malformedKey at hbad
    cases hsk : splitMetaNamespaceKey key with
    | none => simp [process, hsk]
    | some p =>
      obtain ⟨ns, nm2⟩ := p
      rw [hsk] at hbad
      simp only [bne_iff_ne, ne_eq] at hbad
      simp [process, hsk, hbad]
  refine ⟨by simp [enqueue, hko], hp, ?_⟩
  simp [processNextWorkItem, hp]

/-- C5 witness: a failing key function adds nothing to the queue, and a
namespaced key is processed as a no-op and forgotten. -/
theorem c5_malformed_key_dropped_not_retried_holds :
    enqueue (fun _ : Nat => none) ["k0"] 7 = ["k0"] ∧
    process shardReconcile sampleEnv sampleHeap "ns/name" =
      ⟨false, none, [], sampleHeap⟩ ∧
    (processNextWorkItem shardReconcile sampleEnv sampleHeap (some "ns/name")).ops =
      [.forget "ns/name", .done "ns/name"] :=
  c5_malformed_key_dropped_not_retried (fun _ : Nat => none) ["k0"] 7
    shardReconcile sampleEnv sampleHeap "ns/name" rfl (by decide)

/-- C6: a well-formed key whose object vanished (lister reports
not-found) is treated as success — `(requeue := false, err := nil)` and
`Forget` — while any other lister error yields
`(requeue := true, err ≠ nil)` and a rate-limited retry. -/
theorem c6_notfound_success_other_lister_errors_retried (rec : RecFun) (env : Env)
    (h : Heap) (key nm : String)
    (hk : splitMetaNamespaceKey key = some ("", nm)) :
    (env.lister key = .errNotFound →
      process rec env h key = ⟨false, none, [], h⟩ ∧
      (processNextWorkItem rec env h (some key)).ops = [.forget key, .done key]) ∧
    (∀ msg, env.lister key = .errOther msg →
      process rec env h key = ⟨true, some msg, [], h⟩ ∧
      (processNextWorkItem rec env h (some key)).ops =
        [.addRateLimited key, .done key]) := by
  constructor
  · intro hnf
    have hp : process rec env h key = ⟨false, none, [], h⟩ := by
      simp [process, hk, hnf]
    exact ⟨hp, by simp [processNextWorkItem, hp]⟩
  · intro msg hoth
    have hp : process rec env h key = ⟨true, some msg, [], h⟩ := by
      simp [process, hk, hoth]
    exact ⟨hp, by simp [processNextWorkItem, hp]⟩

/-- Environment whose lister reports not-found for every key. -/
def notFoundEnv : Env := ⟨fun _ => .errNotFound, fun _ => none⟩

/-- Environment whose lister fails with a non-not-found error. -/
def failingEnv : Env := ⟨fun _ => .errOther "boom", fun _ => none⟩

/-- C6 witness: both lister-error behaviours at a concrete key. -/
theorem c6_notfound_success_other_lister_errors_retried_holds :
    process shardReconcile notFoundEnv sampleHeap "shard-1" =
      ⟨false, none, [], sampleHeap⟩ ∧
    (processNextWorkItem shardReconcile notFoundEnv sampleHeap (some "shard-1")).ops =
      [.forget "shard-1", .done "shard-1"] ∧
    process shardReconcile failingEnv sampleHeap "shard-1" =
      ⟨true, some "boom", [], sampleHeap⟩ ∧
    (processNextWorkItem shardReconcile failingEnv sampleHeap (some "shard-1")).ops =
      [.addRateLimited "shard-1", .done "shard-1"] :=
  ⟨((c6_notfound_success_other_lister_errors_retried shardReconcile notFoundEnv
      sampleHeap "shard-1" "shard-1" (by decide)).1 rfl).1,
   ((c6_notfound_success_other_lister_errors_retried shardReconcile notFoundEnv
      sampleHeap "shard-1" "shard-1" (by decide)).1 rfl).2,
   ((c6_notfound_success_other_lister_errors_retried shardReconcile failingEnv
      sampleHeap "shard-1" "shard-1" (by decide)).2 "boom" rfl).1,
   ((c6_notfound_success_other_lister_errors_retried shardReconcile failingEnv
      sampleHeap "shard-1" "shard-1" (by decide)).2 "boom" rfl).2⟩

/-- C4: `processNextWorkItem` dispatches on the result of `process`.
On `err ≠ nil` the key is resubmitted via `AddRateLimited`, the error is
reported to the error sink, and `Forget` is not called; on
`err = nil, requeue = true` the key is resubmitted via the
non-rate-limited `Add`; on `err = nil, requeue = false` `Forget` is
called; in every case the worker keeps running (`true` returned). -/
theorem c4_worker_dispatch_on_process_result (rec : RecFun) (env : Env) (h : Heap)
    (key : String) :
    (∀ e, (process rec env h key).err = some e →
      (processNextWorkItem rec env h (some key)).keepRunning = true ∧
      (processNextWorkItem rec env h (some key)).ops = [.addRateLimited key, .done key] ∧
      (processNextWorkItem rec env h (some key)).reported = [(key, e)] ∧
      QueueOp.forget key ∉ (processNextWorkItem rec env h (some key)).ops) ∧
    ((process rec env h key).err = none → (process rec env h key).requeue = true →
      (processNextWorkItem rec env h (some key)).keepRunning = true ∧
      (processNextWorkItem rec env h (some key)).ops = [.add key, .forget key, .done key]) ∧
    ((process rec env h key).err = none → (process rec env h key).requeue = false →
      (processNextWorkItem rec env h (some key)).keepRunning = true ∧
      (processNextWorkItem rec env h (some key)).ops = [.forget key, .done key]) := by
  refine ⟨?_, ?_, ?_⟩
  · intro e he
    simp [processNextWorkItem, he]
  · intro he hr
    simp [processNextWorkItem, he, hr]
  · intro he hr
    simp [processNextWorkItem, he, hr]

/-- C4 witness: the three dispatch outcomes at concrete inputs — a
lister failure (rate-limited retry, no forget), a successful labels
commit (add then forget), and a no-op pass (forget only). -/
theorem c4_worker_dispatch_on_process_result_holds :
    ((processNextWorkItem shardReconcile failingEnv sampleHeap (some "shard-1")).ops =
      [.addRateLimited "shard-1", .done "shard-1"] ∧
      (processNextWorkItem shardReconcile failingEnv sampleHeap (some "shard-1")).reported =
        [("shard-1", "boom")]) ∧
    (processNextWorkItem shardReconcile sampleEnv sampleHeap (some "shard-1")).ops =
      [.add "shard-1", .forget "shard-1", .done "shard-1"] ∧
    (processNextWorkItem shardReconcile sampleEnv labelledHeap (some "shard-1")).ops =
      [.forget "shard-1", .done "shard-1"] :=
  ⟨⟨((c4_worker_dispatch_on_process_result shardReconcile failingEnv sampleHeap
        "shard-1").1 "boom" rfl).2.1,
    ((c4_worker_dispatch_on_process_result shardReconcile failingEnv sampleHeap
        "shard-1").1 "boom" rfl).2.2.1⟩,
   ((c4_worker_dispatch_on_process_result shardReconcile sampleEnv sampleHeap
        "shard-1").2.1 rfl rfl).2,
   ((c4_worker_dispatch_on_process_result shardReconcile sampleEnv labelledHeap
        "shard-1").2.2 rfl rfl).2⟩

/-- C10: when `process` returns `(requeue := true, err := nil)` — after
a successful commit that wants another pass — `processNextWorkItem`
calls `Add(key)` and then also `Forget(key)`, clearing the retry and
backoff bookkeeping on every error-free pass. -/
theorem c10_requeue_pass_also_forgets (rec : RecFun) (env : Env) (h : Heap)
    (key : String)
    (he : (process rec env h key).err = none)
    (hr : (process rec env h key).requeue = true) :
    (processNextWorkItem rec env h (some key)).ops =
      [.add key, .forget key, .done key] := by
  simp [processNextWorkItem, he, hr]

/-- C10 witness: the successful labels commit on the unlabelled shard
requeues via `Add` and still `Forget`s. -/
theorem c10_requeue_pass_also_forgets_holds :
    (processNextWorkItem shardReconcile sampleEnv sampleHeap (some "shard-1")).ops =
      [.add "shard-1", .forget "shard-1", .done "shard-1"] :=
  c10_requeue_pass_also_forgets shardReconcile sampleEnv sampleHeap "shard-1" rfl rfl

/-- C9: the heartbeat threshold and the worker count are validated
strictly positive before the engine starts.  `Options.Validate` errors
exactly when the threshold is non-positive; the worker-count validation
(modelled from the spec, see `validateWorkerCount`) passes exactly for
positive counts, and a validated count makes `Start` launch exactly that
many (positive) workers. -/
theorem c9_tunables_validated_strictly_positive (o : Options) (n : Int)
    (hn : validateWorkerCount n = none) :
    (Options.validate o = none ↔ 0 < o.heartbeatThreshold) ∧
    (0 < n ∧ startWorkers n = n.toNat ∧ 0 < startWorkers n) := by
  have hpos : 0 < n := by
    by_contra hle
    simp [validateWorkerCount, Int.not_lt.mp hle] at hn
  refine ⟨?_, hpos, rfl, ?_⟩
  · by_cases hle : o.heartbeatThreshold ≤ 0
    · simp [Options.validate, hle]
    · simp [Options.validate, hle]
      omega
  · simp [startWorkers]
    omega

/-- C9 witness: the default one-minute threshold validates, and a
validated worker count of 2 launches two workers. -/
theorem c9_tunables_validated_strictly_positive_holds :
    (Options.validate ⟨60000000000⟩ = none ↔ (0 : Int) < 60000000000) ∧
    ((0 : Int) < 2 ∧ startWorkers 2 = (2 : Int).toNat ∧ 0 < startWorkers 2) :=
  c9_tunables_validated_strictly_positive ⟨60000000000⟩ 2 (by decide)
